import Mathlib

/-
Verification development for the karyon repository fragments:
the structured task group (src/core/src/async_util/task_group.rs)
and the JSON-RPC 2.0 server core (src/jsonrpc/src/server/mod.rs).

The definitions below are a shallow embedding of the source. Pure
request-handling code becomes Lean functions over a JSON value type;
the concurrent task-group code becomes a small-step transition system.
Parts of the repository that are referenced but whose source is not in
the corpus (the `message` module, the `select` combinator from
karyon_core::async_util, the CondWait primitive, the response queue)
are modelled from the specification and marked as such in their doc
comments.
-/

namespace Karyon

/-- A JSON value, as produced by the transport codec (serde_json::Value).
Numbers are modelled as integers; the claims under study involve no
fractional numerics. -/
inductive Json where
  | null : Json
  | bool (b : Bool) : Json
  | num (n : Int) : Json
  | str (s : String) : Json
  | arr (elems : List Json) : Json
  | obj (fields : List (String × Json)) : Json


/-- Field lookup in a JSON object; `none` on non-objects or missing keys. -/
def Json.getField : Json → String → Option Json
  | Json.obj fields, key => fields.lookup key
  | _, _ => none

namespace message

/-- Modelled from the spec: the jsonrpc version constant of the
`message` module (not in the corpus); every message carries
`"jsonrpc":"2.0"`. -/
def JSONRPC_VERSION : String := "2.0"

/-- Modelled from the spec: `PARSE_ERROR_CODE` (-32700). -/
def PARSE_ERROR_CODE : Int := -32700

/-- Modelled from the spec: `INVALID_REQUEST_ERROR_CODE` (-32600). -/
def INVALID_REQUEST_ERROR_CODE : Int := -32600

/-- Modelled from the spec: `METHOD_NOT_FOUND_ERROR_CODE` (-32601). -/
def METHOD_NOT_FOUND_ERROR_CODE : Int := -32601

/-- Modelled from the spec: the JSON-RPC error object
`{code: int, message: string, data?: any}` of the `message` module. -/
structure Error where
  code : Int
  message : String
  data : Option Json


/-- Modelled from the spec: the `message::Request` value shape
`{jsonrpc, id, method, params?}`; `id` is a value (string/number/null),
`params` is optional. -/
structure Request where
  jsonrpc : String
  id : Json
  method : String
  params : Option Json


/-- Modelled from the spec: the `message::Response` value shape
`{jsonrpc, id, result?, error?}`. The default value (Rust
`..Default::default()`) carries the jsonrpc version and leaves
error, result and id absent. -/
structure Response where
  jsonrpc : String := JSONRPC_VERSION
  error : Option Error := none
  result : Option Json := none
  id : Option Json := none


/-- Modelled from the spec: an absent `id` field of a Response is
rendered as JSON `null` on the wire (scenario: the parse-error response
is written with `"id":null`). -/
def Response.wireId (r : Response) : Json :=
  r.id.getD Json.null

/-- Modelled from the spec: deserializing a JSON value into a
`message::Request` (`serde_json::from_value`). It requires an object
with a string `jsonrpc` field, a string `method` field and an `id`
field; `params` is optional. Anything else fails. -/
def decodeRequest (v : Json) : Option Request :=
  match v.getField "jsonrpc", v.getField "method", v.getField "id" with
  | some (Json.str version), some (Json.str m), some idv =>
      some { jsonrpc := version, id := idv, method := m, params := v.getField "params" }
  | _, _, _ => none

end message

/- Constants of src/jsonrpc/src/server/mod.rs. -/

def INVALID_REQUEST_ERROR_MSG : String := "Invalid request"

def FAILED_TO_PARSE_ERROR_MSG : String := "Failed to parse"

def METHOD_NOT_FOUND_ERROR_MSG : String := "Method not found"

def UNSUPPORTED_JSONRPC_VERSION : String := "Unsupported jsonrpc version"

/-- `NewRequest` of src/jsonrpc/src/server/mod.rs: a request that passed
the sanity check, with the parsed service and method names. -/
structure NewRequest where
  srvc_name : String
  method_name : String
  msg : message.Request


/-- `SanityCheckResult` of src/jsonrpc/src/server/mod.rs. -/
inductive SanityCheckResult where
  | NewReq (req : NewRequest)
  | ErrRes (res : message.Response)


/-- Rust's `str::split(sep)` over a character list: splits at every
occurrence of the separator, keeping empty segments; the empty input
yields one empty segment. -/
def splitCharList (sep : Char) : List Char → List (List Char)
  | [] => [[]]
  | c :: rest =>
      let r := splitCharList sep rest
      if c = sep then [] :: r
      else
        match r with
        | [] => [[c]]
        | g :: gs => (c :: g) :: gs

/-- Rust's `str::split(sep).collect::<Vec<_>>()` on a string. -/
def stringSplit (sep : Char) (s : String) : List String :=
  (splitCharList sep s.toList).map String.mk

/-- `Server::sanity_check` of src/jsonrpc/src/server/mod.rs: deserialize
the inbound value into a Request (failure gives the parse-error
response with no id), check the jsonrpc version (mismatch gives the
invalid-request code with the unsupported-version message, id echoed),
then split the method string on `.` and require at least two
components (otherwise the invalid-request response, id echoed); the
first component becomes the service name and the second the method
name. -/
def sanity_check (request : Json) : SanityCheckResult :=
  match message.decodeRequest request with
  | none =>
      SanityCheckResult.ErrRes
        { error := some { code := message.PARSE_ERROR_CODE,
                          message := FAILED_TO_PARSE_ERROR_MSG,
                          data := none } }
  | some rpc_msg =>
      if rpc_msg.jsonrpc ≠ message.JSONRPC_VERSION then
        SanityCheckResult.ErrRes
          { error := some { code := message.INVALID_REQUEST_ERROR_CODE,
                            message := UNSUPPORTED_JSONRPC_VERSION,
                            data := none },
            id := some rpc_msg.id }
      else
        let srvc_method := stringSplit '.' rpc_msg.method
        if srvc_method.length < 2 then
          SanityCheckResult.ErrRes
            { error := some { code := message.INVALID_REQUEST_ERROR_CODE,
                              message := INVALID_REQUEST_ERROR_MSG,
                              data := none },
              id := some rpc_msg.id }
        else
          SanityCheckResult.NewReq
            { srvc_name := srvc_method.getD 0 ""
              method_name := srvc_method.getD 1 ""
              msg := rpc_msg }

/-- The per-connection subscription channel. Its internals (subscription
map, bounded sender) are irrelevant to the dispatch claims; it is passed
opaquely to pub/sub methods. -/
structure Channel where
  unit : Unit

/-- Modelled from the spec: a method error (the crate's `Error` type,
not in the corpus) knows how to produce its own JSON-RPC error
response, given an optional id to echo and an optional data payload. -/
structure RPCError where
  to_response : Option Json → Option Json → message.Response

/-- An `RPCService` capability (src/jsonrpc, service module): a
method-dispatch table; `get_method` returns the async method, which
takes the params value and yields a result or a method error. -/
structure RPCService where
  get_method : String → Option (Json → Except RPCError Json)

/-- A `PubSubRPCService` capability: `get_pubsub_method` returns the
async method taking the connection channel, the full method-name string
and the params value. -/
structure PubSubRPCService where
  get_pubsub_method : String → Option (Channel → String → Json → Except RPCError Json)

/-- The service registries of `ServerConfig` (src/jsonrpc/src/server/mod.rs):
two maps keyed by service name. The HashMap `get` is modelled as a
function to an optional service. -/
structure ServerConfig where
  services : String → Option RPCService
  pubsub_services : String → Option PubSubRPCService

/-- The pub/sub lookup performed by `Server::handle_request`: find the
service by name in the pubsub registry, then the method within the
service; the nested `if let` falls through to the ordinary registry
when either lookup misses. -/
def ServerConfig.pubsubLookup (config : ServerConfig) (srvc_name method_name : String) :
    Option (Channel → String → Json → Except RPCError Json) :=
  match config.pubsub_services srvc_name with
  | some service => service.get_pubsub_method method_name
  | none => none

/-- The ordinary-service lookup performed by `Server::handle_request`. -/
def ServerConfig.serviceLookup (config : ServerConfig) (srvc_name method_name : String) :
    Option (Json → Except RPCError Json) :=
  match config.services srvc_name with
  | some service => service.get_method method_name
  | none => none

/-- The common tail of both dispatch branches of `Server::handle_request`:
an `Ok(res)` becomes the response with `result = Some(res)` and the id
echoed; an `Err(err)` becomes the error's own response with the id
echoed. -/
def applyMethodResult (id : Json) (r : Except RPCError Json) : message.Response :=
  match r with
  | Except.ok res =>
      { error := none, result := some res, id := some id }
  | Except.error err => err.to_response (some id) none

/-- `Server::handle_request` of src/jsonrpc/src/server/mod.rs: run the
sanity check (returning its error response on failure), then dispatch:
the pubsub registry is consulted first — a hit invokes the pub/sub
method with the channel, the full `service.method` string and the
params (absent params become JSON null); otherwise the ordinary
registry — a hit invokes the method with the params; otherwise the
method-not-found error response with the id echoed. -/
def handle_request (self : ServerConfig) (channel : Channel) (msg : Json) :
    message.Response :=
  match sanity_check msg with
  | SanityCheckResult.ErrRes res => res
  | SanityCheckResult.NewReq req =>
      match self.pubsubLookup req.srvc_name req.method_name with
      | some method =>
          applyMethodResult req.msg.id
            (method channel req.msg.method (req.msg.params.getD Json.null))
      | none =>
          match self.serviceLookup req.srvc_name req.method_name with
          | some method =>
              applyMethodResult req.msg.id (method (req.msg.params.getD Json.null))
          | none =>
              { error := some { code := message.METHOD_NOT_FOUND_ERROR_CODE,
                                message := METHOD_NOT_FOUND_ERROR_MSG,
                                data := none },
                result := none,
                id := some req.msg.id }

/-- `Either` of karyon_core::async_util: a tagged variant with two arms,
produced by the select combinator. -/
inductive Either (L R : Type) where
  | left (l : L) : Either L R
  | right (r : R) : Either L R

/-- Modelled from the spec: the `select` combinator of
karyon_core::async_util (source not in the corpus). Readiness of each
arm is modelled as an `Option`: `select2Poll a b` is the outcome of one
poll with arm readiness `a` and `b` — the first future is prioritized,
so when both are ready the result is `Left`; `none` means neither arm
is ready and the select stays pending. -/
def select2Poll {L R : Type} (a : Option L) (b : Option R) : Option (Either L R) :=
  match a with
  | some l => some (Either.left l)
  | none =>
      match b with
      | some r => some (Either.right r)
      | none => none

/-- `TaskResult` of src/core/src/async_util/task_group.rs. -/
inductive TaskResult (T : Type) where
  | Completed (res : T) : TaskResult T
  | Cancelled : TaskResult T
deriving DecidableEq

/- ---------------------------------------------------------------
The body of the task scheduled by `TaskHandler::new`
(src/core/src/async_util/task_group.rs lines 147-164), embedded as the
trace of events it performs in order. The outcome of the
`select(stop_signal.wait(), fut)` race is the input.
--------------------------------------------------------------- -/

/-- An observable event of the scheduled task body: the completion
callback is invoked with a `TaskResult`, the callback's future is
awaited to its end, and the handler's `completed` condition
(`cancel_flag`) is signalled. -/
inductive TaskEvent (T : Type) where
  | callbackInvoked (r : TaskResult T) : TaskEvent T
  | callbackReturned : TaskEvent T
  | completedSignal : TaskEvent T

/-- The scheduled task body of `TaskHandler::new`: map the race outcome
(`Left` means the stop signal fired first, `Right` carries the user
future's value) to a `TaskResult`, invoke the callback with it, await
the callback, then signal the `cancel_flag` condition. -/
def taskHandlerBody {T : Type} (raceOutcome : Either Unit T) : List (TaskEvent T) :=
  let result : TaskResult T :=
    match raceOutcome with
    | Either.left _ => TaskResult.Cancelled
    | Either.right res => TaskResult.Completed res
  [TaskEvent.callbackInvoked result, TaskEvent.callbackReturned,
   TaskEvent.completedSignal]

/-- Counts the callback invocations in a task-body trace. -/
def callbackInvocationCount {T : Type} (trace : List (TaskEvent T)) : Nat :=
  trace.countP fun e =>
    match e with
    | TaskEvent.callbackInvoked _ => true
    | _ => false

/- ---------------------------------------------------------------
The per-connection writer loop of `Server::handle_conn`
(src/jsonrpc/src/server/mod.rs lines 132-159), embedded as one loop
iteration over the pending contents of the response queue (an unbounded
FIFO per the spec; source of response_queue.rs not in the corpus) and
the subscription channel.
--------------------------------------------------------------- -/

/-- The value sitting in the subscription channel before the writer
formats it: subscription id, method name and the published result. -/
structure ChannelNotification where
  sub_id : Json
  method : String
  result : Json

/-- Modelled from the spec: `message::NotificationResult`
`{subscription, result}`, serialized as a JSON object. -/
def notificationResultJson (subscription : Json) (result : Option Json) : Json :=
  Json.obj [("subscription", subscription), ("result", result.getD Json.null)]

/-- Modelled from the spec: the `message::Notification` wire shape
`{jsonrpc, method, params}`. -/
structure WireNotification where
  jsonrpc : String
  method : String
  params : Option Json

/-- What the writer sends on the connection in one iteration. -/
inductive SentMessage where
  | response (v : Json) : SentMessage
  | published (n : WireNotification) : SentMessage

/-- One iteration of the writer loop of `Server::handle_conn`:
`select(queue.recv(), ch_rx.recv())` — the response queue is the first
(prioritized) arm; a `Left` sends the encoded response as is, a `Right`
wraps the notification into the wire shape with the jsonrpc version and
a `{subscription, result}` params object and sends that. Returns the
message sent and the remaining contents of both sources; `none` when
both are empty (the writer stays suspended). -/
def writerStep (queue : List Json) (channel : List ChannelNotification) :
    Option (SentMessage × List Json × List ChannelNotification) :=
  match select2Poll queue.head? channel.head? with
  | some (Either.left res) => some (SentMessage.response res, queue.tail, channel)
  | some (Either.right nt) =>
      let params := some (notificationResultJson nt.sub_id (some nt.result))
      some (SentMessage.published
              { jsonrpc := message.JSONRPC_VERSION, method := nt.method, params := params },
            queue, channel.tail)
  | none => none

/- ---------------------------------------------------------------
`TaskGroup::cancel` as a sequential function (src/core/src/async_util/
task_group.rs lines 89-100), used for the double-shutdown claim: the
broadcast sets the stop signal, then the drain loop pops handlers one
at a time and awaits each until the list is empty. The Vec of handlers
is modelled as a stack (push = cons, pop = head). -/

/-- The group state visible to `cancel`: the handler list and whether
the stop signal has been broadcast (karyon's CondWait latches its
signalled state until reset; the group never resets it). -/
structure TaskGroupState (H : Type) where
  tasks : List H
  stop_signal : Bool

/-- The drain loop of `TaskGroup::cancel`: pop one handler and await its
`cancel` until the list is empty. Returns the final list (empty) paired
with the number of handlers awaited. -/
def drainLoop {H : Type} : List H → List H × Nat
  | [] => ([], 0)
  | _handler :: rest =>
      let (remaining, n) := drainLoop rest
      (remaining, n + 1)

/-- `TaskGroup::cancel`: broadcast the stop signal, then drain. Returns
the group state after cancel together with the number of handlers
awaited. -/
def TaskGroupState.cancel {H : Type} (self : TaskGroupState H) :
    TaskGroupState H × Nat :=
  let signalled : TaskGroupState H := { self with stop_signal := true }
  let (remaining, awaited) := drainLoop signalled.tasks
  ({ tasks := remaining, stop_signal := signalled.stop_signal }, awaited)

/-- `Server::shutdown` of src/jsonrpc/src/server/mod.rs simply cancels
the server's task group. -/
def serverShutdown {H : Type} (taskGroup : TaskGroupState H) :
    TaskGroupState H × Nat :=
  taskGroup.cancel

/- ---------------------------------------------------------------
The concurrent behaviour of a TaskGroup (src/core/src/async_util/
task_group.rs), as an interleaving transition system. Each spawned task
is a cell carrying its phase; the group's Vec membership is the cell's
`inQueue` flag; `stop` is the broadcast state of the group's
`stop_signal` CondWait; `cancelled` tracks the progress of a single
`cancel()` call. Task scheduling is nondeterministic: any enabled step
may fire. The user future may become ready at any time (so completion
steps are always enabled); the stop-signal arm of the task's select can
win only once the broadcast has happened.
--------------------------------------------------------------- -/

/-- The phase of one spawned task: still racing the stop signal against
its user future; running its completion callback with the race's
result; or finished (callback returned and `cancel_flag` signalled). -/
inductive TaskPhase (T : Type) where
  | racing : TaskPhase T
  | inCallback (r : TaskResult T) : TaskPhase T
  | finished (r : TaskResult T) : TaskPhase T
deriving DecidableEq

/-- One spawned task: its phase, whether it was spawned before `cancel`
began, and whether its handler is still in the group's Vec. -/
structure TaskCell (T : Type) where
  phase : TaskPhase T
  preCancel : Bool
  inQueue : Bool
deriving DecidableEq

/-- The progress of the (single) `cancel()` call on the group. -/
inductive CancelPhase where
  | notStarted : CancelPhase
  | draining : CancelPhase
  | returned : CancelPhase
deriving DecidableEq

/-- `true` while `cancel` has not begun. -/
def CancelPhase.isNotStarted : CancelPhase → Bool
  | CancelPhase.notStarted => true
  | _ => false

/-- The global state: every task ever spawned (cells are never removed,
so finished tasks remain observable), the broadcast state of the
group's stop signal, and the cancel progress. -/
structure GroupSys (T : Type) where
  tasks : List (TaskCell T)
  stop : Bool
  cancelled : CancelPhase

/-- The interleaving steps of the task group.

* `spawn` — `TaskGroup::spawn` builds a handler and pushes it; the cell
  records whether cancel had begun at that moment.
* `raceStopWins` — a racing task's select resolves `Left`: enabled only
  when the stop signal has been broadcast; the callback starts with
  `Cancelled`.
* `raceFutureWins` — a racing task's select resolves `Right` with the
  user future's value; the callback starts with `Completed v`.
* `callbackReturns` — the callback's future completes; the task then
  signals its `cancel_flag`, reaching `finished`.
* `cancelBroadcast` — `cancel()` begins: `stop_signal.broadcast()`.
* `cancelAwait` — the drain loop pops a handler and awaits its
  `TaskHandler::cancel`, which suspends on `cancel_flag.wait()`; it can
  proceed only when the task has finished.
* `cancelReturns` — the drain loop observes the empty Vec and
  `cancel()` returns. -/
inductive GStep {T : Type} : GroupSys T → GroupSys T → Prop where
  | spawn (s : GroupSys T) :
      GStep s { s with
        tasks := s.tasks ++
          [{ phase := TaskPhase.racing,
             preCancel := s.cancelled.isNotStarted,
             inQueue := true }] }
  | raceStopWins (s : GroupSys T) (i : Nat) (c : TaskCell T)
      (hget : s.tasks[i]? = some c)
      (hphase : c.phase = TaskPhase.racing)
      (hstop : s.stop = true) :
      GStep s { s with
        tasks := s.tasks.set i { c with phase := TaskPhase.inCallback TaskResult.Cancelled } }
  | raceFutureWins (s : GroupSys T) (i : Nat) (c : TaskCell T) (v : T)
      (hget : s.tasks[i]? = some c)
      (hphase : c.phase = TaskPhase.racing) :
      GStep s { s with
        tasks := s.tasks.set i { c with phase := TaskPhase.inCallback (TaskResult.Completed v) } }
  | callbackReturns (s : GroupSys T) (i : Nat) (c : TaskCell T) (r : TaskResult T)
      (hget : s.tasks[i]? = some c)
      (hphase : c.phase = TaskPhase.inCallback r) :
      GStep s { s with
        tasks := s.tasks.set i { c with phase := TaskPhase.finished r } }
  | cancelBroadcast (s : GroupSys T)
      (hphase : s.cancelled = CancelPhase.notStarted) :
      GStep s { s with stop := true, cancelled := CancelPhase.draining }
  | cancelAwait (s : GroupSys T) (i : Nat) (c : TaskCell T) (r : TaskResult T)
      (hdrain : s.cancelled = CancelPhase.draining)
      (hget : s.tasks[i]? = some c)
      (hqueue : c.inQueue = true)
      (hfin : c.phase = TaskPhase.finished r) :
      GStep s { s with tasks := s.tasks.set i { c with inQueue := false } }
  | cancelReturns (s : GroupSys T)
      (hdrain : s.cancelled = CancelPhase.draining)
      (hempty : ∀ c ∈ s.tasks, c.inQueue = false) :
      GStep s { s with cancelled := CancelPhase.returned }

/-- The initial state: a freshly built group, no tasks, stop signal not
broadcast, cancel not begun. -/
def GroupSys.init (T : Type) : GroupSys T :=
  { tasks := [], stop := false, cancelled := CancelPhase.notStarted }

/-- Reachability from the initial group state. -/
inductive GReach {T : Type} : GroupSys T → Prop where
  | init : GReach (GroupSys.init T)
  | step {s s' : GroupSys T} : GReach s → GStep s s' → GReach s'

/-- The inductive invariant: every task spawned before cancel began is
either finished or still tracked by the drain loop (and cancel has not
returned); once cancel has progressed past the broadcast, the stop
signal is set. -/
def GInv {T : Type} (s : GroupSys T) : Prop :=
  (∀ (i : Nat) (c : TaskCell T), s.tasks[i]? = some c → c.preCancel = true →
      (∃ r, c.phase = TaskPhase.finished r) ∨
        (c.inQueue = true ∧ s.cancelled ≠ CancelPhase.returned)) ∧
  ((s.cancelled = CancelPhase.draining ∨ s.cancelled = CancelPhase.returned) →
      s.stop = true)

/- ---------------------------------------------------------------
Concrete sample values, used to instantiate the theorems below.
--------------------------------------------------------------- -/

/-- A request whose method is `".foo"`: well-versioned, with an empty
service component. -/
def sampleEmptyServiceMsg : Json :=
  Json.obj [("jsonrpc", Json.str "2.0"), ("method", Json.str ".foo"), ("id", Json.num 7)]

/-- A request whose method is `"a.b.c"`: three dot-separated components. -/
def sampleMultiDotMsg : Json :=
  Json.obj [("jsonrpc", Json.str "2.0"), ("method", Json.str "a.b.c"), ("id", Json.num 8)]

/-- A request whose method is `"foo."`: well-versioned, with an empty
method component. -/
def sampleEmptyMethodMsg : Json :=
  Json.obj [("jsonrpc", Json.str "2.0"), ("method", Json.str "foo."), ("id", Json.num 9)]

/-- A request whose method is `"foo"`: no dot at all. -/
def sampleNoDotMsg : Json :=
  Json.obj [("jsonrpc", Json.str "2.0"), ("method", Json.str "foo"), ("id", Json.num 2)]

/-- A request carrying jsonrpc version `"1.0"`. -/
def sampleBadVersionMsg : Json :=
  Json.obj [("jsonrpc", Json.str "1.0"), ("method", Json.str "foo.bar"), ("id", Json.num 1)]

/-- A well-formed request for `echo.say` with no params field. -/
def sampleEchoMsg : Json :=
  Json.obj [("jsonrpc", Json.str "2.0"), ("method", Json.str "echo.say"), ("id", Json.num 4)]

/-- A registry configuration binding the name `echo.say` in BOTH
registries: the pub/sub method answers `"ps"`, the ordinary method
answers `"ord"`. Used to instantiate the dispatch-priority theorem. -/
def sampleOverlapConfig : ServerConfig :=
  { services := fun srvc =>
      if srvc = "echo" then
        some { get_method := fun m =>
          if m = "say" then some (fun _params => Except.ok (Json.str "ord")) else none }
      else none,
    pubsub_services := fun srvc =>
      if srvc = "echo" then
        some { get_pubsub_method := fun m =>
          if m = "say" then
            some (fun _chan _full params => Except.ok (Json.arr [Json.str "ps", params]))
          else none }
      else none }

/-- A configuration with both registries empty. -/
def sampleEmptyConfig : ServerConfig :=
  { services := fun _ => none, pubsub_services := fun _ => none }

/-- A configuration with only an ordinary `echo.say` binding that
echoes its params argument back inside an array. -/
def sampleOrdinaryConfig : ServerConfig :=
  { services := fun srvc =>
      if srvc = "echo" then
        some { get_method := fun m =>
          if m = "say" then some (fun params => Except.ok (Json.arr [params])) else none }
      else none,
    pubsub_services := fun _ => none }

/-- The final state of a concrete run of the task-group system: one
task spawned, the stop signal broadcast by `cancel`, the task's race
lost to the signal, its callback run with `Cancelled`, the handler
drained, and `cancel` returned. -/
def sampleCancelledGroup : GroupSys Nat :=
  { tasks := [{ phase := TaskPhase.finished TaskResult.Cancelled,
                preCancel := true, inQueue := false }],
    stop := true,
    cancelled := CancelPhase.returned }

/- ===============================================================
Theorems
=============================================================== -/

/-- Reading an index of `l.set i a` yields either the written value or
what `l` already held at that index. -/
theorem getElem?_set_cases {α : Type} {l : List α} {i j : Nat} {a c : α}
    (h : (l.set i a)[j]? = some c) : c = a ∨ l[j]? = some c := by
  rcases eq_or_ne i j with rfl | hne
  · by_cases hil : i < l.length
    · rw [List.getElem?_set_self hil] at h
      exact Or.inl (Option.some.inj h).symm
    · rw [List.set_eq_of_length_le (Nat.le_of_not_lt hil)] at h
      exact Or.inr h
  · rw [List.getElem?_set_ne hne] at h
    exact Or.inr h

/-- Reading an index of `l ++ [x]` yields either an element of `l` or
the appended value. -/
theorem getElem?_append_singleton_cases {α : Type} {l : List α} {x c : α} {j : Nat}
    (h : (l ++ [x])[j]? = some c) : l[j]? = some c ∨ c = x := by
  rw [List.getElem?_append] at h
  by_cases hj : j < l.length
  · rw [if_pos hj] at h
    exact Or.inl h
  · rw [if_neg hj] at h
    rcases hx : (j - l.length) with _ | k
    · rw [hx] at h
      simp at h
      exact Or.inr h.symm
    · rw [hx] at h
      simp at h

/-- An element read by index is a member of the list. -/
theorem mem_of_getElem?_some {α : Type} {l : List α} {i : Nat} {c : α}
    (h : l[i]? = some c) : c ∈ l :=
  List.getElem?_mem h

/-- `isNotStarted` is only true of `notStarted`. -/
theorem CancelPhase.eq_notStarted_of_isNotStarted {p : CancelPhase}
    (h : p.isNotStarted = true) : p = CancelPhase.notStarted := by
  cases p <;> first | rfl | exact absurd h (by simp [CancelPhase.isNotStarted])

/-- The invariant `GInv` is preserved by every step of the task-group
transition system. -/
theorem GInv_step {T : Type} {s s' : GroupSys T} (hinv : GInv s) (hstep : GStep s s') :
    GInv s' := by
  obtain ⟨h1, h2⟩ := hinv
  cases hstep with
  | spawn =>
    refine ⟨?_, h2⟩
    intro i c hget hpre
    rcases getElem?_append_singleton_cases hget with hold | rfl
    · exact h1 i c hold hpre
    · have hns := CancelPhase.eq_notStarted_of_isNotStarted hpre
      exact Or.inr ⟨rfl, by rw [hns]; intro hcon; cases hcon⟩
  | raceStopWins i c hget hphase hstop =>
    refine ⟨?_, h2⟩
    intro j c' hget' hpre'
    rcases getElem?_set_cases hget' with rfl | hold
    · rcases h1 i c hget hpre' with ⟨r, hr⟩ | ⟨hq, hne⟩
      · rw [hphase] at hr
        cases hr
      · exact Or.inr ⟨hq, hne⟩
    · exact h1 j c' hold hpre'
  | raceFutureWins i c v hget hphase =>
    refine ⟨?_, h2⟩
    intro j c' hget' hpre'
    rcases getElem?_set_cases hget' with rfl | hold
    · rcases h1 i c hget hpre' with ⟨r, hr⟩ | ⟨hq, hne⟩
      · rw [hphase] at hr
        cases hr
      · exact Or.inr ⟨hq, hne⟩
    · exact h1 j c' hold hpre'
  | callbackReturns i c r hget hphase =>
    refine ⟨?_, h2⟩
    intro j c' hget' hpre'
    rcases getElem?_set_cases hget' with rfl | hold
    · exact Or.inl ⟨r, rfl⟩
    · exact h1 j c' hold hpre'
  | cancelBroadcast hphase =>
    refine ⟨?_, fun _ => rfl⟩
    intro i c hget hpre
    rcases h1 i c hget hpre with hfin | ⟨hq, _⟩
    · exact Or.inl hfin
    · exact Or.inr ⟨hq, by intro hcon; cases hcon⟩
  | cancelAwait i c r hdrain hget hqueue hfin =>
    refine ⟨?_, h2⟩
    intro j c' hget' hpre'
    rcases getElem?_set_cases hget' with rfl | hold
    · exact Or.inl ⟨r, hfin⟩
    · exact h1 j c' hold hpre'
  | cancelReturns hdrain hempty =>
    refine ⟨?_, fun _ => h2 (Or.inl hdrain)⟩
    intro i c hget hpre
    rcases h1 i c hget hpre with hfin | ⟨hq, _⟩
    · exact Or.inl hfin
    · rw [hempty c (mem_of_getElem?_some hget)] at hq
      cases hq

/-- Every reachable state of the task-group system satisfies `GInv`. -/
theorem GInv_reach {T : Type} {s : GroupSys T} (h : GReach s) : GInv s := by
  induction h with
  | init =>
    constructor
    · intro i c hget
      simp [GroupSys.init] at hget
    · intro hor
      rcases hor with hcon | hcon <;> cases hcon
  | step _ hstep ih => exact GInv_step ih hstep

/-- C1: in every reachable state of the task-group system in which
`cancel()` has returned, the stop signal has been broadcast and every
task that was spawned before `cancel` began has reached the `finished`
phase — its completion callback has run to completion and is no longer
executing. -/
theorem cancel_returns_after_all_callbacks {T : Type} {s : GroupSys T}
    (hreach : GReach s) (hret : s.cancelled = CancelPhase.returned) :
    s.stop = true ∧
      ∀ (i : Nat) (c : TaskCell T), s.tasks[i]? = some c → c.preCancel = true →
        ∃ r, c.phase = TaskPhase.finished r := by
  obtain ⟨h1, h2⟩ := GInv_reach hreach
  refine ⟨h2 (Or.inr hret), ?_⟩
  intro i c hget hpre
  rcases h1 i c hget hpre with hfin | ⟨_, hne⟩
  · exact hfin
  · exact absurd hret hne

/-- Witness for C1: a concrete six-step run — spawn, broadcast, race
lost to the signal, callback returned, handler drained, cancel
returned — on which the theorem applies. -/
theorem cancel_returns_after_all_callbacks_witness :
    sampleCancelledGroup.stop = true ∧
      ∀ (i : Nat) (c : TaskCell Nat),
        sampleCancelledGroup.tasks[i]? = some c → c.preCancel = true →
          ∃ r, c.phase = TaskPhase.finished r :=
  cancel_returns_after_all_callbacks
    (GReach.step
      (GReach.step
        (GReach.step
          (GReach.step
            (GReach.step
              (GReach.step GReach.init (GStep.spawn _))
              (GStep.cancelBroadcast _ rfl))
            (GStep.raceStopWins _ 0 _ rfl rfl rfl))
          (GStep.callbackReturns _ 0 _ TaskResult.Cancelled rfl rfl))
        (GStep.cancelAwait _ 0 _ TaskResult.Cancelled rfl rfl rfl rfl))
      (GStep.cancelReturns _ rfl (by decide)))
    rfl

/-- The NewReq branch of `sanity_check`: once the envelope decodes, the
version matches, and the split method has at least two components, the
result is a `NewReq` with the first component as service name and the
second as method name. -/
theorem sanity_check_newReq_of_split {v : Json} {req : message.Request}
    {s0 s1 : String} {rest : List String}
    (hdec : message.decodeRequest v = some req)
    (hver : req.jsonrpc = message.JSONRPC_VERSION)
    (hsplit : stringSplit '.' req.method = s0 :: s1 :: rest) :
    sanity_check v = SanityCheckResult.NewReq
      { srvc_name := s0, method_name := s1, msg := req } := by
  unfold sanity_check
  rw [hdec]
  simp only [hver, ne_eq, not_true_eq_false, if_false, hsplit]
  rfl

/-- The rejection branch of `sanity_check`: once the envelope decodes
and the version matches, a split with fewer than two components yields
the invalid-request error response with the id echoed. -/
theorem sanity_check_errRes_of_short_split {v : Json} {req : message.Request}
    (hdec : message.decodeRequest v = some req)
    (hver : req.jsonrpc = message.JSONRPC_VERSION)
    (hlen : (stringSplit '.' req.method).length < 2) :
    sanity_check v = SanityCheckResult.ErrRes
      { jsonrpc := message.JSONRPC_VERSION,
        error := some { code := message.INVALID_REQUEST_ERROR_CODE,
                        message := INVALID_REQUEST_ERROR_MSG, data := none },
        result := none,
        id := some req.id } := by
  unfold sanity_check
  rw [hdec]
  simp only [hver, ne_eq, not_true_eq_false, if_false, hlen, if_true]

/-- C2 counterexample: the claim's parsing rule fails on the code in
two ways. The method `".foo"` has an empty service component, which the
claim requires to be rejected, yet `sanity_check` accepts it (with the
empty string as service name); and the method `"a.b.c"` under the
claim's split-on-the-first-dot rule would give method name `"b.c"`,
yet `sanity_check` gives `"b"`. -/
theorem sanity_check_parse_claim_counterexample :
    sanity_check sampleEmptyServiceMsg =
      SanityCheckResult.NewReq
        { srvc_name := "", method_name := "foo",
          msg := { jsonrpc := "2.0", id := Json.num 7, method := ".foo", params := none } } ∧
    sanity_check sampleMultiDotMsg =
      SanityCheckResult.NewReq
        { srvc_name := "a", method_name := "b",
          msg := { jsonrpc := "2.0", id := Json.num 8, method := "a.b.c", params := none } } :=
  ⟨rfl, rfl⟩

/-- C2 (amended): the method string is split on every `'.'`; the
request is rejected with the InvalidRequest response (code -32600,
message "Invalid request", id echoed) exactly when the split yields
fewer than two components, i.e. when the method contains no dot;
otherwise the first component (possibly empty) becomes the service
name and the second (possibly empty) the method name. -/
theorem sanity_check_method_parse {v : Json} {req : message.Request}
    (hdec : message.decodeRequest v = some req)
    (hver : req.jsonrpc = message.JSONRPC_VERSION) :
    ((stringSplit '.' req.method).length < 2 →
        sanity_check v = SanityCheckResult.ErrRes
          { jsonrpc := message.JSONRPC_VERSION,
            error := some { code := message.INVALID_REQUEST_ERROR_CODE,
                            message := INVALID_REQUEST_ERROR_MSG, data := none },
            result := none,
            id := some req.id }) ∧
    (∀ s0 s1 rest, stringSplit '.' req.method = s0 :: s1 :: rest →
        sanity_check v = SanityCheckResult.NewReq
          { srvc_name := s0, method_name := s1, msg := req }) :=
  ⟨fun hlen => sanity_check_errRes_of_short_split hdec hver hlen,
   fun _ _ _ hsplit => sanity_check_newReq_of_split hdec hver hsplit⟩

/-- Witness for the amended C2: the method `"foo"` (no dot) is rejected
with the invalid-request response and its id echoed. -/
theorem sanity_check_method_parse_witness :
    sanity_check sampleNoDotMsg = SanityCheckResult.ErrRes
      { jsonrpc := message.JSONRPC_VERSION,
        error := some { code := message.INVALID_REQUEST_ERROR_CODE,
                        message := INVALID_REQUEST_ERROR_MSG, data := none },
        result := none,
        id := some (Json.num 2) } :=
  (sanity_check_method_parse (v := sampleNoDotMsg) rfl rfl).1 (by decide)

/-- C10: `sanity_check` accepts any method string containing at least
one dot, even with empty components (`".foo"` and `"foo."` both pass),
and for more than two components it uses the first as service name and
the second as method name, ignoring the rest. -/
theorem sanity_check_lenient_method_names :
    sanity_check sampleEmptyServiceMsg =
      SanityCheckResult.NewReq
        { srvc_name := "", method_name := "foo",
          msg := { jsonrpc := "2.0", id := Json.num 7, method := ".foo", params := none } } ∧
    sanity_check sampleEmptyMethodMsg =
      SanityCheckResult.NewReq
        { srvc_name := "foo", method_name := "",
          msg := { jsonrpc := "2.0", id := Json.num 9, method := "foo.", params := none } } ∧
    sanity_check sampleMultiDotMsg =
      SanityCheckResult.NewReq
        { srvc_name := "a", method_name := "b",
          msg := { jsonrpc := "2.0", id := Json.num 8, method := "a.b.c", params := none } } ∧
    (∀ (v : Json) (req : message.Request) (s0 s1 : String) (rest : List String),
      message.decodeRequest v = some req →
      req.jsonrpc = message.JSONRPC_VERSION →
      stringSplit '.' req.method = s0 :: s1 :: rest →
      sanity_check v = SanityCheckResult.NewReq
        { srvc_name := s0, method_name := s1, msg := req }) :=
  ⟨rfl, rfl, rfl,
   fun _ _ _ _ _ hdec hver hsplit => sanity_check_newReq_of_split hdec hver hsplit⟩

/-- Witness for C10: the method `"foo."` (empty method component) is
accepted, with service name `"foo"` and the empty method name. -/
theorem sanity_check_lenient_method_names_witness :
    sanity_check sampleEmptyMethodMsg = SanityCheckResult.NewReq
      { srvc_name := "foo", method_name := "",
        msg := { jsonrpc := "2.0", id := Json.num 9, method := "foo.", params := none } } :=
  sanity_check_lenient_method_names.2.2.2 sampleEmptyMethodMsg
    { jsonrpc := "2.0", id := Json.num 9, method := "foo.", params := none }
    "foo" "" [] rfl rfl rfl

/-- C5: every inbound request that decodes but carries a jsonrpc
version other than "2.0" produces the response with error code -32600,
message "Unsupported jsonrpc version", and the request's id echoed. -/
theorem bad_version_response {config : ServerConfig} {channel : Channel}
    {v : Json} {req : message.Request}
    (hdec : message.decodeRequest v = some req)
    (hver : req.jsonrpc ≠ message.JSONRPC_VERSION) :
    handle_request config channel v =
      { jsonrpc := message.JSONRPC_VERSION,
        error := some { code := message.INVALID_REQUEST_ERROR_CODE,
                        message := UNSUPPORTED_JSONRPC_VERSION, data := none },
        result := none,
        id := some req.id } := by
  unfold handle_request sanity_check
  rw [hdec]
  simp only [hver, ne_eq, not_false_eq_true, if_true]

/-- Witness for C5: a concrete request with jsonrpc "1.0". -/
theorem bad_version_response_witness :
    handle_request sampleEmptyConfig { unit := () } sampleBadVersionMsg =
      { jsonrpc := message.JSONRPC_VERSION,
        error := some { code := message.INVALID_REQUEST_ERROR_CODE,
                        message := UNSUPPORTED_JSONRPC_VERSION, data := none },
        result := none,
        id := some (Json.num 1) } :=
  bad_version_response (v := sampleBadVersionMsg) rfl (by decide)

/-- C6: every inbound value that fails to deserialize into a Request
produces the response whose error has code -32700 and message "Failed
to parse" and whose id is absent — rendered as JSON null on the wire. -/
theorem parse_failure_response {config : ServerConfig} {channel : Channel}
    {v : Json} (hdec : message.decodeRequest v = none) :
    handle_request config channel v =
      { jsonrpc := message.JSONRPC_VERSION,
        error := some { code := message.PARSE_ERROR_CODE,
                        message := FAILED_TO_PARSE_ERROR_MSG, data := none },
        result := none,
        id := none } ∧
    (handle_request config channel v).wireId = Json.null := by
  have h : handle_request config channel v =
      { jsonrpc := message.JSONRPC_VERSION,
        error := some { code := message.PARSE_ERROR_CODE,
                        message := FAILED_TO_PARSE_ERROR_MSG, data := none },
        result := none,
        id := none } := by
    unfold handle_request sanity_check
    rw [hdec]
  exact ⟨h, by rw [h]; rfl⟩

/-- Witness for C6: the value `"not json at all"` (a bare string) fails
to decode and receives the parse-error response with a null id. -/
theorem parse_failure_response_witness :
    handle_request sampleEmptyConfig { unit := () } (Json.str "not json at all") =
      { jsonrpc := message.JSONRPC_VERSION,
        error := some { code := message.PARSE_ERROR_CODE,
                        message := FAILED_TO_PARSE_ERROR_MSG, data := none },
        result := none,
        id := none } ∧
    (handle_request sampleEmptyConfig { unit := () }
        (Json.str "not json at all")).wireId = Json.null :=
  parse_failure_response (v := Json.str "not json at all") rfl

/-- C3: the scheduled task body races the stop signal against the user
future — a `Left` outcome yields `Cancelled`, a `Right` with value `v`
yields `Completed v` — invokes the completion callback with that result
exactly once and awaits it, and signals the handler's completed
condition only after the callback has returned. -/
theorem taskHandlerBody_order {T : Type} :
    (∀ u : Unit, taskHandlerBody (Either.left u : Either Unit T) =
      [TaskEvent.callbackInvoked TaskResult.Cancelled, TaskEvent.callbackReturned,
       TaskEvent.completedSignal]) ∧
    (∀ v : T, taskHandlerBody (Either.right v : Either Unit T) =
      [TaskEvent.callbackInvoked (TaskResult.Completed v), TaskEvent.callbackReturned,
       TaskEvent.completedSignal]) ∧
    (∀ e : Either Unit T, ∃ r, taskHandlerBody e =
      [TaskEvent.callbackInvoked r, TaskEvent.callbackReturned,
       TaskEvent.completedSignal]) ∧
    (∀ e : Either Unit T, callbackInvocationCount (taskHandlerBody e) = 1) := by
  refine ⟨fun u => rfl, fun v => rfl, fun e => ?_, fun e => ?_⟩
  · cases e with
    | left u => exact ⟨TaskResult.Cancelled, rfl⟩
    | right v => exact ⟨TaskResult.Completed v, rfl⟩
  · cases e <;> rfl

/-- Witness for C3: the task body at a concrete race outcome. -/
theorem taskHandlerBody_order_witness :
    taskHandlerBody (Either.right 5 : Either Unit Nat) =
      [TaskEvent.callbackInvoked (TaskResult.Completed 5), TaskEvent.callbackReturned,
       TaskEvent.completedSignal] :=
  (taskHandlerBody_order (T := Nat)).2.1 5

/-- C4: whenever the response queue and the notification channel are
both ready in the same writer poll, the writer sends the queued
response on the connection and leaves the notification pending. -/
theorem writer_prioritizes_responses {res : Json} {queueRest : List Json}
    {nt : ChannelNotification} {chanRest : List ChannelNotification} :
    writerStep (res :: queueRest) (nt :: chanRest) =
      some (SentMessage.response res, queueRest, nt :: chanRest) := rfl

/-- Witness for C4: one queued response and one ready notification;
the response is the message sent. -/
theorem writer_prioritizes_responses_witness :
    writerStep [Json.str "response"]
        [{ sub_id := Json.num 1, method := "echo.sub", result := Json.str "event" }] =
      some (SentMessage.response (Json.str "response"), [],
        [{ sub_id := Json.num 1, method := "echo.sub", result := Json.str "event" }]) :=
  writer_prioritizes_responses

/-- The drain loop of `cancel` always empties the handler list and
awaits one handler per element. -/
theorem drainLoop_drains {H : Type} (l : List H) : drainLoop l = ([], l.length) := by
  induction l with
  | nil => rfl
  | cons h t ih => simp [drainLoop, ih]

/-- C9: after a completed shutdown, a second `Server::shutdown` is a
no-op: it broadcasts on the already-signalled stop condition (the state
keeps `stop_signal = true`), finds the task list empty, and returns the
state unchanged without awaiting any handler. -/
theorem shutdown_twice_noop {H : Type} (group : TaskGroupState H) :
    serverShutdown (serverShutdown group).1 = ((serverShutdown group).1, 0) ∧
    (serverShutdown group).1.tasks = [] ∧
    (serverShutdown group).1.stop_signal = true := by
  simp [serverShutdown, TaskGroupState.cancel, drainLoop_drains]

/-- Witness for C9: a concrete two-handler group; the second shutdown
returns the first shutdown's state unchanged, awaiting no handler. -/
theorem shutdown_twice_noop_witness :
    serverShutdown
        (serverShutdown ({ tasks := [0, 1], stop_signal := false } : TaskGroupState Nat)).1 =
      ((serverShutdown ({ tasks := [0, 1], stop_signal := false } : TaskGroupState Nat)).1, 0) :=
  (shutdown_twice_noop { tasks := [0, 1], stop_signal := false }).1

/-- C7: dispatch consults the pub/sub registry first — any hit there
resolves the request to the pub/sub binding regardless of the ordinary
registry's contents — and when the name resolves in neither registry
the response carries error code -32601, message "Method not found",
and the request's id echoed. -/
theorem dispatch_pubsub_first {config : ServerConfig} {channel : Channel}
    {v : Json} {req : NewRequest}
    (hsan : sanity_check v = SanityCheckResult.NewReq req) :
    (∀ m, config.pubsubLookup req.srvc_name req.method_name = some m →
        handle_request config channel v =
          applyMethodResult req.msg.id
            (m channel req.msg.method (req.msg.params.getD Json.null))) ∧
    (config.pubsubLookup req.srvc_name req.method_name = none →
      config.serviceLookup req.srvc_name req.method_name = none →
      handle_request config channel v =
        { jsonrpc := message.JSONRPC_VERSION,
          error := some { code := message.METHOD_NOT_FOUND_ERROR_CODE,
                          message := METHOD_NOT_FOUND_ERROR_MSG, data := none },
          result := none,
          id := some req.msg.id }) := by
  constructor
  · intro m hm
    unfold handle_request
    rw [hsan]
    dsimp only
    rw [hm]
  · intro hps hord
    unfold handle_request
    rw [hsan]
    dsimp only
    rw [hps, hord]

/-- Witness for C7: with `echo.say` bound in BOTH registries, the
pub/sub binding (which answers `["ps", params]`) wins over the ordinary
one (which answers `"ord"`). -/
theorem dispatch_pubsub_first_witness :
    handle_request sampleOverlapConfig { unit := () } sampleEchoMsg =
      { jsonrpc := message.JSONRPC_VERSION,
        error := none,
        result := some (Json.arr [Json.str "ps", Json.null]),
        id := some (Json.num 4) } := by
  have h := (@dispatch_pubsub_first sampleOverlapConfig { unit := () } sampleEchoMsg
      { srvc_name := "echo", method_name := "say",
        msg := { jsonrpc := "2.0", id := Json.num 4,
                 method := "echo.say", params := none } }
      rfl).1
  exact (h _ rfl).trans rfl

/-- C8: when the request's params field is absent, the resolved method
— pub/sub or ordinary — is invoked with JSON null as its params
argument. -/
theorem absent_params_invoked_as_null {config : ServerConfig} {channel : Channel}
    {v : Json} {req : NewRequest}
    (hsan : sanity_check v = SanityCheckResult.NewReq req)
    (hparams : req.msg.params = none) :
    (∀ m, config.pubsubLookup req.srvc_name req.method_name = some m →
        handle_request config channel v =
          applyMethodResult req.msg.id (m channel req.msg.method Json.null)) ∧
    (∀ m, config.pubsubLookup req.srvc_name req.method_name = none →
        config.serviceLookup req.srvc_name req.method_name = some m →
        handle_request config channel v =
          applyMethodResult req.msg.id (m Json.null)) := by
  constructor
  · intro m hm
    unfold handle_request
    rw [hsan]
    dsimp only
    rw [hm, hparams]
    rfl
  · intro m hps hord
    unfold handle_request
    rw [hsan]
    dsimp only
    rw [hps, hord, hparams]
    rfl

/-- Witness for C8: an ordinary `echo.say` method that wraps its params
argument in an array; called on a request with no params field, it
answers `[null]`, showing it received JSON null. -/
theorem absent_params_invoked_as_null_witness :
    handle_request sampleOrdinaryConfig { unit := () } sampleEchoMsg =
      { jsonrpc := message.JSONRPC_VERSION,
        error := none,
        result := some (Json.arr [Json.null]),
        id := some (Json.num 4) } := by
  have h := (@absent_params_invoked_as_null sampleOrdinaryConfig { unit := () } sampleEchoMsg
      { srvc_name := "echo", method_name := "say",
        msg := { jsonrpc := "2.0", id := Json.num 4,
                 method := "echo.say", params := none } }
      rfl rfl).2
  exact (h _ rfl rfl).trans rfl

end Karyon
